import Mathlib

/-!
Verification of the runtime round-execution pipeline against its sources.

The development shallowly embeds the block-header model
(go/roothash/api/block/header.go), the transaction pool
(go/runtime/txpool/txpool.go) and the committee node controller
(go/worker/compute/committee/node.go).  Cryptographic hashes are modelled as
injective encodings into the naturals (collision-free idealization);
signatures are symbolic records of the context and message they verify for.
Components whose implementation is not among the sources (the check queue,
the LRU seen cache, the scheduling package, the controller state table) are
modelled from the specification and say so in their doc comments.
-/

namespace Oasis

/-- An injective encoding of lists of naturals, used as the model of byte
strings and canonical (CBOR) encodings; digests of such encodings model
cryptographic hashes, idealized as collision free. -/
def encodeNatList : List Nat → Nat
  | [] => 0
  | a :: rest => Nat.pair a (encodeNatList rest) + 1

/-- Storage root types (storage.RootTypeIO and storage.RootTypeState of the
storage API). -/
inductive RootType where
  | io
  | state
deriving DecidableEq, Repr

def RootType.toNat : RootType → Nat
  | .io => 0
  | .state => 1

/-- A signature, modelled symbolically: it records its signer together with
the domain-separation context and message it is a valid signature over.
Modelled from the spec: the crypto primitives are opaque sign and verify
(spec section 1, non-goals); the signature package is not among the
sources. -/
structure Signature where
  signer : Nat
  ctx : Nat
  msg : Nat
deriving DecidableEq, Repr

/-- Injective encoding of a signature. -/
def Signature.enc (s : Signature) : Nat :=
  encodeNatList [s.signer, s.ctx, s.msg]

/-- Signature.Verify in the symbolic model: a signature is valid for exactly
the context and message it was produced over. -/
def Signature.verifies (s : Signature) (c m : Nat) : Bool :=
  s.ctx == c && s.msg == m

/-- Block header types (go/roothash/api/block/header.go). -/
inductive HeaderType where
  | invalid
  | normal
  | roundFailed
  | epochTransition
  | suspended
deriving DecidableEq, Repr

def HeaderType.toNat : HeaderType → Nat
  | .invalid => 0
  | .normal => 1
  | .roundFailed => 2
  | .epochTransition => 3
  | .suspended => 4

/-- Block header (go/roothash/api/block/header.go, type Header).  Opaque
32-byte values (namespaces, hashes) are modelled as naturals. -/
structure Header where
  version : Nat
  nspace : Nat
  round : Nat
  timestamp : Nat
  headerType : HeaderType
  previousHash : Nat
  ioRoot : Nat
  stateRoot : Nat
  messagesHash : Nat
  storageSignatures : List Signature
deriving DecidableEq, Repr

/-- EncodedHash (header.go): the canonical digest of a header over all of its
fields, including the storage signatures.  The hash is modelled as an
injective encoding. -/
def Header.EncodedHash (h : Header) : Nat :=
  encodeNatList [h.version, h.nspace, h.round, h.timestamp, h.headerType.toNat,
    h.previousHash, h.ioRoot, h.stateRoot, h.messagesHash,
    encodeNatList (h.storageSignatures.map Signature.enc)]

/-- A header with the StorageSignatures field cleared (set to the empty
list), as both sides of MostlyEqual do before hashing. -/
def Header.withClearedSignatures (h : Header) : Header :=
  { h with storageSignatures := [] }

/-- MostlyEqual (header.go): compares two headers for equality by hashing
both with the StorageSignatures field replaced by an empty list. -/
def Header.MostlyEqual (h cmp : Header) : Bool :=
  h.withClearedSignatures.EncodedHash == cmp.withClearedSignatures.EncodedHash

/-- Canonical receipt body of the storage API.  Modelled from the spec: the
storage API package is not among the sources; spec 4.5 gives the shape
with version, namespace, round, root types and roots. -/
structure ReceiptBody where
  version : Nat
  nspace : Nat
  round : Nat
  rootTypes : List RootType
  roots : List Nat
deriving DecidableEq, Repr

/-- Canonical (CBOR) encoding of a receipt body, modelled as an injective
encoding (spec: deterministic tag-ordered binary encoding). -/
def ReceiptBody.cborEncode (b : ReceiptBody) : Nat :=
  encodeNatList [b.version, b.nspace, b.round,
    encodeNatList (b.rootTypes.map RootType.toNat), encodeNatList b.roots]

/-- The storage receipt signature domain-separation context
(storage.ReceiptSignatureContext), an opaque constant. -/
def receiptSignatureContext : Nat := 0

/-- signature.VerifyManyToOne.  Modelled from the spec: it "verifies a
multi-signature under the receipt signature domain" and "fails if any
signature invalid" (spec 4.5); the signature package is not among the
sources. -/
def verifyManyToOne (c m : Nat) (sigs : List Signature) : Bool :=
  sigs.all fun s => s.verifies c m

inductive VerifyError where
  | verifyFailed
deriving DecidableEq, Repr

/-- RootsForStorageReceipt (header.go): the ordered merkle roots that must be
part of a storage receipt. -/
def Header.RootsForStorageReceipt (h : Header) : List Nat :=
  [h.ioRoot, h.stateRoot]

/-- RootTypesForStorageReceipt (header.go): the root type sequence matching
RootsForStorageReceipt. -/
def Header.RootTypesForStorageReceipt (_h : Header) : List RootType :=
  [RootType.io, RootType.state]

/-- VerifyStorageReceiptSignatures (header.go): reconstructs the receipt body
and checks the storage signatures against its canonical encoding under the
receipt signature context. -/
def Header.VerifyStorageReceiptSignatures (h : Header) : Except VerifyError Unit :=
  let receiptBody : ReceiptBody :=
    { version := 1
      nspace := h.nspace
      round := h.round
      rootTypes := h.RootTypesForStorageReceipt
      roots := h.RootsForStorageReceipt }
  if verifyManyToOne receiptSignatureContext receiptBody.cborEncode h.storageSignatures then
    Except.ok ()
  else
    Except.error VerifyError.verifyFailed

/-- The receipt body exactly as the claim words it: version 1, the header's
namespace and round, root types IO then State, and roots io-root then
state-root. -/
def specReceiptBody (h : Header) : ReceiptBody :=
  { version := 1
    nspace := h.nspace
    round := h.round
    rootTypes := [RootType.io, RootType.state]
    roots := [h.ioRoot, h.stateRoot] }

/-- Concrete header used by witnesses. -/
def hdr0 : Header :=
  { version := 0, nspace := 1, round := 2, timestamp := 3,
    headerType := HeaderType.normal, previousHash := 4, ioRoot := 5,
    stateRoot := 6, messagesHash := 7, storageSignatures := [] }

/-- TransactionMeta (txpool.go): per-transaction metadata. -/
structure TransactionMeta where
  isLocal : Bool
  discard : Bool
  recheck : Bool
deriving DecidableEq, Repr

/-- hash.NewFromBytes: the fingerprint of a raw transaction, modelled as an
injective encoding of the byte string. -/
def hashNewFromBytes (raw : List Nat) : Nat :=
  encodeNatList raw

/-- pendingTx (txpool): a transaction pending check, carrying its raw bytes,
fingerprint, metadata and the optional notification channel.  Channels are
identified by numeric ids; `none` corresponds to a nil channel. -/
structure PendingTx where
  tx : List Nat
  txHash : Nat
  meta : TransactionMeta
  notifyCh : Option Nat
deriving DecidableEq, Repr

inductive AddError where
  | queueFull
  | duplicate
deriving DecidableEq, Repr

/-- Modelled from the spec: the check queue implementation (checkTxQueue) is
not among the sources.  Spec 4.2: a bounded FIFO of pending transactions,
deduplicated by fingerprint; add fails with QueueFull at capacity and with
Duplicate when the fingerprint is already queued (the existing notify sink is
kept); get-batch returns up to the maximum batch size of items in insertion
order; remove-batch removes the given items. -/
structure CheckTxQueue where
  txs : List PendingTx
  maxSize : Nat
  maxBatchSize : Nat
deriving DecidableEq, Repr

def CheckTxQueue.add (q : CheckTxQueue) (tx : PendingTx) : Except AddError CheckTxQueue :=
  if q.maxSize ≤ q.txs.length then Except.error AddError.queueFull
  else if q.txs.any fun p => p.txHash == tx.txHash then Except.error AddError.duplicate
  else Except.ok { q with txs := q.txs ++ [tx] }

def CheckTxQueue.getBatch (q : CheckTxQueue) : List PendingTx :=
  q.txs.take q.maxBatchSize

def CheckTxQueue.removeBatch (q : CheckTxQueue) (batch : List PendingTx) : CheckTxQueue :=
  { q with txs := q.txs.filter fun p => !(batch.any fun b => b.txHash == p.txHash) }

def CheckTxQueue.size (q : CheckTxQueue) : Nat :=
  q.txs.length

/-- Modelled from the spec: the LRU cache package backing the seen cache is
not among the sources.  Spec 4.1: a bounded LRU from fingerprint to last
publish time with peek, put and clear; eviction is strictly by least recent
access and capacity is enforced on put.  Entries are kept most recently used
first. -/
structure LruCache where
  entries : List (Nat × Nat)
  capacity : Nat
deriving DecidableEq, Repr

def LruCache.peek (c : LruCache) (k : Nat) : Option Nat :=
  (c.entries.find? fun e => e.1 == k).map Prod.snd

def LruCache.put (c : LruCache) (k v : Nat) : LruCache :=
  { c with entries := ((k, v) :: c.entries.filter fun e => !(e.1 == k)).take c.capacity }

def LruCache.clear (c : LruCache) : LruCache :=
  { c with entries := [] }

/-- CheckedTransaction (runtime/transaction): fingerprint, raw bytes and the
weights the transaction consumes. -/
structure CheckedTransaction where
  raw : List Nat
  hash : Nat
  weights : List (String × Nat)
deriving DecidableEq, Repr

inductive QueueError where
  | queueFull
  | duplicate
  | exceedsLimit
deriving DecidableEq, Repr

def lookupWeight (limits : List (String × Nat)) (w : String) : Option Nat :=
  (limits.find? fun e => e.1 == w).map Prod.snd

def CheckedTransaction.exceedsAnyLimit (tx : CheckedTransaction)
    (limits : List (String × Nat)) : Bool :=
  tx.weights.any fun wv =>
    match lookupWeight limits wv.1 with
    | some l => l < wv.2
    | none => false

/-- Modelled from the spec: the scheduling package (the simple FIFO scheduler
with weight caps) is not among the sources.  Spec 4.3: a weighted,
deduplicated queue with a name, a capacity and per-round weight limits. -/
structure Scheduler where
  algoName : String
  maxPoolSize : Nat
  txs : List CheckedTransaction
  weightLimits : List (String × Nat)
deriving DecidableEq, Repr

def Scheduler.queueTx (s : Scheduler) (tx : CheckedTransaction) :
    Except QueueError Scheduler :=
  if s.txs.any fun t => t.hash == tx.hash then Except.error QueueError.duplicate
  else if s.maxPoolSize ≤ s.txs.length then Except.error QueueError.queueFull
  else if tx.exceedsAnyLimit s.weightLimits then Except.error QueueError.exceedsLimit
  else Except.ok { s with txs := s.txs ++ [tx] }

def Scheduler.removeTxBatch (s : Scheduler) (hashes : List Nat) : Scheduler :=
  { s with txs := s.txs.filter fun t => !(hashes.any fun h => h == t.hash) }

def Scheduler.unscheduledSize (s : Scheduler) : Nat :=
  s.txs.length

def Scheduler.getTransactions (s : Scheduler) : List CheckedTransaction :=
  s.txs

def Scheduler.updateParameters (s : Scheduler) (algo : String)
    (limits : List (String × Nat)) : Except String Scheduler :=
  if algo == s.algoName then Except.ok { s with weightLimits := limits }
  else Except.error "algorithm mismatch"

/-- Modelled from the spec: scheduling.New constructs the scheduler from the
maximum pool size, the algorithm name from the runtime descriptor and the
weight limits; only the single simple algorithm is supported (spec 9), other
names fail. -/
def schedulingNew (maxPoolSize : Nat) (algo : String)
    (limits : List (String × Nat)) : Except String Scheduler :=
  if algo == "simple" then
    Except.ok
      { algoName := algo, maxPoolSize := maxPoolSize, txs := [],
        weightLimits := limits }
  else Except.error "unknown algorithm"

def weightConsensusMessages : String := "consensus_messages"

def weightSizeBytes : String := "size_bytes"

def weightCount : String := "count"

/-- Replaces or inserts a weight limit in the association list, modelling a
Go map update. -/
def setWeight (limits : List (String × Nat)) (w : String) (v : Nat) :
    List (String × Nat) :=
  if limits.any fun e => e.1 == w then
    limits.map fun e => if e.1 == w then (w, v) else e
  else limits ++ [(w, v)]

/-- The fields of the active runtime descriptor read by the pool (the
registry API is an external collaborator). -/
structure ActiveDescriptor where
  executorMaxMessages : Nat
  txnSchedulerAlgorithm : String
  maxBatchSize : Nat
  maxBatchSizeBytes : Nat
  batchFlushTimeout : Nat
deriving DecidableEq, Repr

/-- BlockInfo (txpool.go): the data of the runtime block the pool uses. -/
structure BlockInfo where
  headerType : HeaderType
  round : Nat
  activeDescriptor : ActiveDescriptor
deriving DecidableEq, Repr

/-- Config (txpool.go): the pool configuration fields the model uses. -/
structure PoolConfig where
  maxPoolSize : Nat
  maxCheckTxBatchSize : Nat
  maxLastSeenCacheSize : Nat
  recheckInterval : Nat
deriving DecidableEq, Repr

/-- The mutable state of the transaction pool (struct txPool of txpool.go):
the seen cache, the check queue, the optional scheduler with its ticker
interval, the round weight limits, the last block information and the last
recheck round. -/
structure TxPoolState where
  cfg : PoolConfig
  seenCache : LruCache
  checkQueue : CheckTxQueue
  sched : Option Scheduler
  schedulerTickerInterval : Nat
  roundWeightLimits : List (String × Nat)
  blockInfo : Option BlockInfo
  lastRecheckRound : Nat
deriving DecidableEq, Repr

/-- The possible outcomes of submitTx (txpool.go): the early nil return for
an already seen transaction, the successful enqueue (which wakes the check
worker), or the propagated check-queue add error. -/
inductive SubmitOutcome where
  | skippedSeen
  | queued
  | addFailed (e : AddError)
deriving DecidableEq, Repr

/-- submitTx (txpool.go): computes the fingerprint, skips transactions that
are in the seen cache unless the recheck flag is set, and otherwise queues
the pending transaction for checking and wakes the check worker. -/
def TxPoolState.submitTx (t : TxPoolState) (rawTx : List Nat)
    (meta : TransactionMeta) (notifyCh : Option Nat) :
    SubmitOutcome × TxPoolState :=
  let txHash := hashNewFromBytes rawTx
  if (t.seenCache.peek txHash).isSome && !meta.recheck then
    (SubmitOutcome.skippedSeen, t)
  else
    match t.checkQueue.add ⟨rawTx, txHash, meta, notifyCh⟩ with
    | Except.error e => (SubmitOutcome.addFailed e, t)
    | Except.ok q => (SubmitOutcome.queued, { t with checkQueue := q })

/-- SubmitTxNoWait (txpool.go): submitTx with a nil notification channel;
both the seen-skip and the enqueued case report success. -/
def TxPoolState.SubmitTxNoWait (t : TxPoolState) (rawTx : List Nat)
    (meta : TransactionMeta) : Except AddError TxPoolState :=
  match t.submitTx rawTx meta none with
  | (SubmitOutcome.addFailed e, _) => Except.error e
  | (_, t2) => Except.ok t2

/-- The immediate behaviour of the blocking SubmitTx (txpool.go): it either
propagates the submitTx error, or it enters the select that waits on the
caller context, the stop channel and the notification channel.  The flag
records whether the transaction was actually placed in the check queue
together with its notification channel; only then can a check result ever be
delivered on that channel. -/
inductive SubmitStep where
  | returnErr (e : AddError)
  | awaitResult (txQueued : Bool)
deriving DecidableEq, Repr

/-- SubmitStep corresponding to the claim that a call returns immediately,
without entering the wait for a check result. -/
def SubmitStep.returnsImmediately : SubmitStep → Bool
  | SubmitStep.returnErr _ => true
  | SubmitStep.awaitResult _ => false

/-- SubmitTx (txpool.go), first phase: allocate a notification channel (an
arbitrary fresh id), run submitTx, propagate its error, and otherwise enter
the select waiting for the check result. -/
def TxPoolState.SubmitTxStep (t : TxPoolState) (rawTx : List Nat)
    (meta : TransactionMeta) (ch : Nat) : SubmitStep × TxPoolState :=
  match t.submitTx rawTx meta (some ch) with
  | (SubmitOutcome.addFailed e, t2) => (SubmitStep.returnErr e, t2)
  | (SubmitOutcome.skippedSeen, t2) => (SubmitStep.awaitResult false, t2)
  | (SubmitOutcome.queued, t2) => (SubmitStep.awaitResult true, t2)

/-- RemoveTxBatch (txpool.go): forwards the batch removal to the scheduler
under the scheduler lock. -/
def TxPoolState.RemoveTxBatch (t : TxPoolState) (hashes : List Nat) : TxPoolState :=
  { t with sched := t.sched.map fun s => s.removeTxBatch hashes }

/-- A single runtime check result (protocol.CheckTxResult): the success flag
and the weights consumed on success. -/
structure CheckTxResult where
  success : Bool
  weights : List (String × Nat)
deriving DecidableEq, Repr

/-- ToCheckedTransaction: converts a passing check result and the raw
transaction into the checked representation. -/
def CheckTxResult.toCheckedTransaction (r : CheckTxResult) (raw : List Nat) :
    CheckedTransaction :=
  { raw := raw, hash := hashNewFromBytes raw, weights := r.weights }

/-- The externally visible effects of one check-worker cycle: the
notification channels fired with their results (in batch order), the batches
broadcast to checked-transaction subscribers, whether the scheduling
notifier was signalled, and whether the republish worker was nudged. -/
structure CheckEffects where
  notified : List (Nat × CheckTxResult)
  broadcastTxs : List (List CheckedTransaction)
  schedulerNotified : Bool
  republishNudged : Bool
deriving DecidableEq, Repr

def noCheckEffects : CheckEffects :=
  { notified := [], broadcastTxs := [], schedulerNotified := false,
    republishNudged := false }

/-- The first loop of checkTxBatch (txpool.go): walks the batch paired with
the runtime results and produces the notifications to fire (every item with a
channel, in order), the hashes of failed rechecks to unschedule, and the
passing fresh transactions (converted, with their local flags). -/
def classifyResults : List (PendingTx × CheckTxResult) →
    List (Nat × CheckTxResult) × List Nat × List (CheckedTransaction × Bool)
  | [] => ([], [], [])
  | (p, r) :: rest =>
    let acc := classifyResults rest
    let notifs := match p.notifyCh with
      | some ch => (ch, r) :: acc.1
      | none => acc.1
    let classified :=
      if !r.success then
        ((if p.meta.recheck then [p.txHash] else []) ++ acc.2.1, acc.2.2)
      else if p.meta.discard || p.meta.recheck then
        acc.2
      else
        (acc.2.1, (r.toCheckedTransaction p.tx, p.meta.isLocal) :: acc.2.2)
    (notifs, classified)

/-- The second loop of checkTxBatch (txpool.go): queues each checked
transaction into the scheduler (skipping it on a queue error), publishes
local transactions (the publish outcome of the i-th item is an oracle
parameter), and records the hash into the seen cache with the publish time
(the zero sentinel when a local publish failed, which also nudges the
republish worker). -/
def queueCheckedLoop (sched : Scheduler) (cache : LruCache) (now : Nat)
    (pubOk : Nat → Bool) (i : Nat) :
    List (CheckedTransaction × Bool) → Scheduler × LruCache × Bool
  | [] => (sched, cache, false)
  | (tx, isLoc) :: rest =>
    match sched.queueTx tx with
    | Except.error _ => queueCheckedLoop sched cache now pubOk (i + 1) rest
    | Except.ok s2 =>
      let failedPublish := isLoc && !(pubOk i)
      let pubTime := if failedPublish then 0 else now
      let acc := queueCheckedLoop s2 (cache.put tx.hash pubTime) now pubOk (i + 1) rest
      (acc.1, acc.2.1, failedPublish || acc.2.2)

/-- checkTxBatch (txpool.go): one check-worker cycle.  The runtime outcome is
an oracle parameter: `none` models CheckTx returning an error for the whole
batch, `some results` the per-transaction results in input order.  An empty
batch, missing block information or a failed runtime call leave the pool
unchanged; otherwise the batch is removed from the check queue, results are
classified, failed rechecks are unscheduled via RemoveTxBatch, and passing
fresh transactions are queued, published and recorded as seen. -/
def TxPoolState.checkTxBatch (t : TxPoolState)
    (runtimeOutcome : Option (List CheckTxResult)) (now : Nat)
    (pubOk : Nat → Bool) : TxPoolState × CheckEffects :=
  let batch := t.checkQueue.getBatch
  if batch.isEmpty then (t, noCheckEffects)
  else
    match t.blockInfo with
    | none => (t, noCheckEffects)
    | some _ =>
      match runtimeOutcome with
      | none => (t, noCheckEffects)
      | some results =>
        let t1 := { t with checkQueue := t.checkQueue.removeBatch batch }
        let acc := classifyResults (batch.zip results)
        let t2 := t1.RemoveTxBatch acc.2.1
        if acc.2.2.isEmpty then
          (t2, { noCheckEffects with notified := acc.1 })
        else
          match t2.sched with
          | none => (t2, { noCheckEffects with notified := acc.1 })
          | some s =>
            let loop := queueCheckedLoop s t2.seenCache now pubOk 0 acc.2.2
            ({ t2 with sched := some loop.1, seenCache := loop.2.1 },
              { notified := acc.1, broadcastTxs := [acc.2.2.map Prod.fst],
                schedulerNotified := true, republishNudged := loop.2.2 })

/-- updateScheduler (txpool.go): refreshes the three non-custom round weight
limits from the active descriptor, then either initializes the scheduler
(first block) or, for an already initialized scheduler, rejects an algorithm
change and otherwise updates its parameters; on success the flush ticker is
reset to the descriptor's batch flush timeout.  The state is returned
together with the optional error because the weight-limit map update
precedes, and survives, an error return. -/
def TxPoolState.updateScheduler (t : TxPoolState) (bi : BlockInfo) :
    TxPoolState × Option String :=
  let limits :=
    setWeight
      (setWeight
        (setWeight t.roundWeightLimits weightConsensusMessages
          bi.activeDescriptor.executorMaxMessages)
        weightSizeBytes bi.activeDescriptor.maxBatchSizeBytes)
      weightCount bi.activeDescriptor.maxBatchSize
  let t0 := { t with roundWeightLimits := limits }
  match t.sched with
  | none =>
    match schedulingNew t.cfg.maxPoolSize bi.activeDescriptor.txnSchedulerAlgorithm
        limits with
    | Except.error e => (t0, some e)
    | Except.ok s =>
      ({ t0 with
          sched := some s,
          schedulerTickerInterval := bi.activeDescriptor.batchFlushTimeout }, none)
  | some s =>
    if bi.activeDescriptor.txnSchedulerAlgorithm ≠ s.algoName then
      (t0, some "transaction scheduler algorithm update not supported")
    else
      match s.updateParameters s.algoName limits with
      | Except.error e => (t0, some e)
      | Except.ok s2 =>
        ({ t0 with
            sched := some s2,
            schedulerTickerInterval := bi.activeDescriptor.batchFlushTimeout }, none)

/-- The signals fired by ProcessBlock: the epoch-change signal to the
republish worker and the recheck signal. -/
structure ProcessBlockEffects where
  epochSignal : Bool
  recheckSignal : Bool
deriving DecidableEq, Repr

/-- Wrapping 64-bit subtraction, as performed on round numbers in Go. -/
def sub64 (a b : Nat) : Nat :=
  (a + (2 ^ 64 - b % 2 ^ 64)) % 2 ^ 64

/-- ProcessBlock (txpool.go): on the first observed block or on an epoch
transition, updates the scheduler (propagating its error, in which case the
block information is not recorded) and fires the epoch signal; then records
the block information and, when the round distance since the last recheck
exceeds the recheck interval, signals the recheck worker. -/
def TxPoolState.ProcessBlock (t : TxPoolState) (bi : BlockInfo) :
    TxPoolState × Option String × ProcessBlockEffects :=
  let needsUpdate := t.blockInfo.isNone || bi.headerType == HeaderType.epochTransition
  if needsUpdate then
    let u := t.updateScheduler bi
    match u.2 with
    | some e => (u.1, some e, { epochSignal := false, recheckSignal := false })
    | none =>
      let t2 := { u.1 with blockInfo := some bi }
      if t.cfg.recheckInterval < sub64 bi.round t2.lastRecheckRound then
        ({ t2 with lastRecheckRound := bi.round }, none,
          { epochSignal := true, recheckSignal := true })
      else
        (t2, none, { epochSignal := true, recheckSignal := false })
  else
    let t2 := { t with blockInfo := some bi }
    if t.cfg.recheckInterval < sub64 bi.round t2.lastRecheckRound then
      ({ t2 with lastRecheckRound := bi.round }, none,
        { epochSignal := false, recheckSignal := true })
    else
      (t2, none, { epochSignal := false, recheckSignal := false })

/-- Shared fixture: metadata of a plain external submission. -/
def meta0 : TransactionMeta :=
  { isLocal := false, discard := false, recheck := false }

/-- Shared fixture: a publish oracle that always succeeds. -/
def pubOkAll : Nat → Bool := fun _ => true

/-- Shared fixture: an empty simple scheduler. -/
def sched0 : Scheduler :=
  { algoName := "simple", maxPoolSize := 10, txs := [], weightLimits := [] }

/-- Shared fixture: a runtime descriptor naming the simple algorithm. -/
def desc0 : ActiveDescriptor :=
  { executorMaxMessages := 4, txnSchedulerAlgorithm := "simple",
    maxBatchSize := 10, maxBatchSizeBytes := 1000, batchFlushTimeout := 5 }

/-- Shared fixture: block information for a normal round. -/
def bi0 : BlockInfo :=
  { headerType := HeaderType.normal, round := 1, activeDescriptor := desc0 }

/-- Shared fixture: a pool whose seen cache already holds the fingerprint of
the raw transaction with single byte 1. -/
def poolCfg0 : PoolConfig :=
  { maxPoolSize := 10, maxCheckTxBatchSize := 10, maxLastSeenCacheSize := 10,
    recheckInterval := 32 }

def seenPool : TxPoolState :=
  { cfg := poolCfg0,
    seenCache := { entries := [(hashNewFromBytes [1], 0)], capacity := 10 },
    checkQueue := { txs := [], maxSize := 10, maxBatchSize := 10 },
    sched := some sched0,
    schedulerTickerInterval := 0,
    roundWeightLimits := [],
    blockInfo := some bi0,
    lastRecheckRound := 0 }

/-- Shared fixture: a pending transaction with a notification channel. -/
def ptx0 : PendingTx :=
  { tx := [1], txHash := hashNewFromBytes [1], meta := meta0, notifyCh := some 7 }

/-- Shared fixture: a pool with one pending transaction, an initialized
scheduler and current block information. -/
def checkPool : TxPoolState :=
  { cfg := poolCfg0,
    seenCache := { entries := [], capacity := 10 },
    checkQueue := { txs := [ptx0], maxSize := 10, maxBatchSize := 10 },
    sched := some sched0,
    schedulerTickerInterval := 0,
    roundWeightLimits := [],
    blockInfo := some bi0,
    lastRecheckRound := 0 }

/-- The result of a check cycle whose runtime call succeeded, as one closed
expression over the pre-state: used to reason about the branches of
checkTxBatch once the scheduler and block information are known. -/
def checkTxBatchRun (t : TxPoolState) (s : Scheduler)
    (results : List CheckTxResult) (now : Nat) (pubOk : Nat → Bool) :
    TxPoolState × CheckEffects :=
  let batch := t.checkQueue.getBatch
  let acc := classifyResults (batch.zip results)
  let s1 := s.removeTxBatch acc.2.1
  if acc.2.2.isEmpty then
    ({ t with checkQueue := t.checkQueue.removeBatch batch, sched := some s1 },
      { noCheckEffects with notified := acc.1 })
  else
    let loop := queueCheckedLoop s1 t.seenCache now pubOk 0 acc.2.2
    ({ t with
        checkQueue := t.checkQueue.removeBatch batch,
        sched := some loop.1,
        seenCache := loop.2.1 },
      { notified := acc.1, broadcastTxs := [acc.2.2.map Prod.fst],
        schedulerNotified := true, republishNudged := loop.2.2 })

/-- Shared fixture: an epoch-transition block whose descriptor names another
scheduling algorithm. -/
def biOther : BlockInfo :=
  { headerType := HeaderType.epochTransition, round := 1,
    activeDescriptor := { desc0 with txnSchedulerAlgorithm := "other" } }

/-- Shared fixture: the checked representation of the raw transaction [1]. -/
def ctx1 : CheckedTransaction :=
  { raw := [1], hash := hashNewFromBytes [1], weights := [] }

/-- Shared fixture: the scheduler state after the cycle accepted ctx1. -/
def sched1 : Scheduler :=
  { algoName := "simple", maxPoolSize := 10, txs := [ctx1], weightLimits := [] }

/-- Shared fixture: a passing check result. -/
def resOk : CheckTxResult :=
  { success := true, weights := [] }

/-- Shared fixture: a discard submission with a notification channel. -/
def ptxD : PendingTx :=
  { tx := [1], txHash := hashNewFromBytes [1],
    meta := { isLocal := false, discard := true, recheck := false },
    notifyCh := some 7 }

/-- Shared fixture: a pool whose only pending transaction is the discard
submission. -/
def discardPool : TxPoolState :=
  { checkPool with checkQueue := { txs := [ptxD], maxSize := 10, maxBatchSize := 10 } }

/-- Shared fixture: a failed check result. -/
def resFail : CheckTxResult :=
  { success := false, weights := [] }

/-- Shared fixture: a pending transaction undergoing recheck. -/
def ptxRe : PendingTx :=
  { tx := [1], txHash := hashNewFromBytes [1],
    meta := { isLocal := false, discard := false, recheck := true },
    notifyCh := none }

/-- Shared fixture: a scheduler still holding the rechecked transaction. -/
def schedRe : Scheduler :=
  { sched0 with txs := [{ raw := [1], hash := hashNewFromBytes [1], weights := [] }] }

/-- Shared fixture: a pool whose only pending transaction is a recheck. -/
def recheckPool : TxPoolState :=
  { checkPool with
    checkQueue := { txs := [ptxRe], maxSize := 10, maxBatchSize := 10 },
    sched := some schedRe }

/-- Names of the committee node controller states. -/
inductive StateName where
  | notReady
  | waitingForBatch
  | waitingForBlock
  | waitingForEvent
  | processingBatch
  | waitingForFinalize
deriving DecidableEq, Repr

/-- Committee node controller states with their payloads (the payloads follow
the uses in node.go: the stored batch, the awaited header, the batch start
time).  Modelled from the spec: state.go of the committee worker is not among
the sources; spec 4.7 lists the states. -/
inductive NodeState where
  | notReady
  | waitingForBatch
  | waitingForBlock (batch : List (List Nat)) (hdr : Header)
  | waitingForEvent (batch : List (List Nat))
  | processingBatch (batch : List (List Nat)) (batchStartTime : Nat)
  | waitingForFinalize (batchStartTime : Nat)
deriving DecidableEq, Repr

def NodeState.name : NodeState → StateName
  | .notReady => StateName.notReady
  | .waitingForBatch => StateName.waitingForBatch
  | .waitingForBlock _ _ => StateName.waitingForBlock
  | .waitingForEvent _ => StateName.waitingForEvent
  | .processingBatch _ _ => StateName.processingBatch
  | .waitingForFinalize _ => StateName.waitingForFinalize

/-- Modelled from the spec: the validStateTransitions table lives in state.go,
which is not among the sources; its edges are exactly the rows of the state
table of spec 4.7 (WaitingForBlock continues "as above", so it may start
processing or return to waiting for a batch). -/
def validStateTransitions : StateName → List StateName
  | StateName.notReady => [StateName.waitingForBatch]
  | StateName.waitingForBatch =>
      [StateName.processingBatch, StateName.waitingForEvent, StateName.waitingForBlock]
  | StateName.waitingForBlock =>
      [StateName.processingBatch, StateName.waitingForEvent, StateName.waitingForBatch]
  | StateName.waitingForEvent =>
      [StateName.processingBatch, StateName.waitingForBatch]
  | StateName.processingBatch => [StateName.waitingForFinalize]
  | StateName.waitingForFinalize => [StateName.waitingForBatch]

/-- transitionLocked (node.go): validates the intended transition against the
table and panics on a disallowed pair (modelled as none); otherwise installs
the new state and broadcasts it. -/
def transitionLocked (cur next : NodeState) : Option NodeState :=
  if (validStateTransitions cur.name).contains next.name then some next else none

/-- The epoch snapshot facts the controller consults. -/
structure EpochSnapshot where
  isComputeMember : Bool
  isComputeBackupWorker : Bool
  isMergeMember : Bool
deriving DecidableEq, Repr

/-- Errors returned by the controller operations (node.go). -/
inductive NodeError where
  | incompatibleHeader
  | incorrectRole
  | incorrectState
deriving DecidableEq, Repr

/-- Result of one controller operation: a new (or unchanged) state, a
returned error leaving the state unchanged, or a panic. -/
inductive StepResult where
  | ok (st : NodeState)
  | err (e : NodeError)
  | panicked
deriving DecidableEq, Repr

/-- startProcessingBatchLocked (node.go): panics on a nil current block,
otherwise transitions to ProcessingBatch and dispatches the batch. -/
def startProcessingBatchLocked (st : NodeState) (currentBlock : Option Header)
    (batch : List (List Nat)) (now : Nat) : Option NodeState :=
  match currentBlock with
  | none => none
  | some _ => transitionLocked st (NodeState.processingBatch batch now)

/-- maybeStartProcessingBatchLocked (node.go): a compute backup worker waits
for the discrepancy event; any other node starts processing. -/
def maybeStartProcessingBatchLocked (st : NodeState) (currentBlock : Option Header)
    (epoch : EpochSnapshot) (batch : List (List Nat)) (now : Nat) :
    Option NodeState :=
  if epoch.isComputeBackupWorker then
    transitionLocked st (NodeState.waitingForEvent batch)
  else
    startProcessingBatchLocked st currentBlock batch now

/-- handleExternalBatchLocked (node.go): only a node waiting for a batch may
accept it (IncorrectState otherwise), only a compute member may receive it
(IncorrectRole otherwise); the batch starts processing when its header is
mostly equal to the current block's header, is stored while waiting for a
later block when the current round is strictly older than the batch's, and is
rejected with the incompatible-header error otherwise. -/
def handleExternalBatchLocked (st : NodeState) (currentBlock : Option Header)
    (epoch : EpochSnapshot) (batch : List (List Nat)) (hdr : Header) (now : Nat) :
    StepResult :=
  match st with
  | NodeState.waitingForBatch =>
    if !epoch.isComputeMember then StepResult.err NodeError.incorrectRole
    else
      match currentBlock with
      | none => StepResult.panicked
      | some cb =>
        if cb.MostlyEqual hdr then
          match maybeStartProcessingBatchLocked st currentBlock epoch batch now with
          | some st2 => StepResult.ok st2
          | none => StepResult.panicked
        else if hdr.round ≤ cb.round then
          StepResult.err NodeError.incompatibleHeader
        else
          match transitionLocked st (NodeState.waitingForBlock batch hdr) with
          | some st2 => StepResult.ok st2
          | none => StepResult.panicked
  | _ => StepResult.err NodeError.incorrectState

/-- HandleEpochTransitionLocked (node.go): compute members transition to
WaitingForBatch, all other nodes to NotReady, from whatever the current state
is. -/
def HandleEpochTransitionLocked (st : NodeState) (epoch : EpochSnapshot) :
    StepResult :=
  if epoch.isComputeMember then
    match transitionLocked st NodeState.waitingForBatch with
    | some st2 => StepResult.ok st2
    | none => StepResult.panicked
  else
    match transitionLocked st NodeState.notReady with
    | some st2 => StepResult.ok st2
    | none => StepResult.panicked

/-- abortBatchLocked (node.go): only a node processing a batch aborts (no-op
otherwise); it cancels the batch context and transitions to
WaitingForFinalize. -/
def abortBatchLocked (st : NodeState) : StepResult :=
  match st with
  | NodeState.processingBatch _ t0 =>
    match transitionLocked st (NodeState.waitingForFinalize t0) with
    | some st2 => StepResult.ok st2
    | none => StepResult.panicked
  | _ => StepResult.ok st

/-- HandleNewBlockLocked (node.go): a node waiting for a block starts
processing when the block mostly equals the awaited header, returns to
waiting for a batch when an equal or newer round arrives, and keeps waiting
otherwise; nodes waiting for an event or for finalization consider the round
finalized and return to waiting for a batch. -/
def HandleNewBlockLocked (st : NodeState) (currentBlock : Option Header)
    (epoch : EpochSnapshot) (blk : Header) (now : Nat) : StepResult :=
  match st with
  | NodeState.waitingForBlock batch hdr =>
    if blk.MostlyEqual hdr then
      match maybeStartProcessingBatchLocked st currentBlock epoch batch now with
      | some st2 => StepResult.ok st2
      | none => StepResult.panicked
    else if hdr.round ≤ blk.round then
      match transitionLocked st NodeState.waitingForBatch with
      | some st2 => StepResult.ok st2
      | none => StepResult.panicked
    else StepResult.ok st
  | NodeState.waitingForEvent _ =>
    match transitionLocked st NodeState.waitingForBatch with
    | some st2 => StepResult.ok st2
    | none => StepResult.panicked
  | NodeState.waitingForFinalize _ =>
    match transitionLocked st NodeState.waitingForBatch with
    | some st2 => StepResult.ok st2
    | none => StepResult.panicked
  | _ => StepResult.ok st

/-- HandleNewEventLocked (node.go): on a compute discrepancy event, a compute
backup worker that was waiting for the event starts processing its stored
batch; everything else is ignored. -/
def HandleNewEventLocked (st : NodeState) (currentBlock : Option Header)
    (epoch : EpochSnapshot) (hasDiscrepancy : Bool) (now : Nat) : StepResult :=
  if !hasDiscrepancy then StepResult.ok st
  else
    match st with
    | NodeState.waitingForEvent batch =>
      if epoch.isComputeBackupWorker then
        match startProcessingBatchLocked st currentBlock batch now with
        | some st2 => StepResult.ok st2
        | none => StepResult.panicked
      else StepResult.ok st
    | _ => StepResult.ok st

/-- The storage-apply, receipt-verification, signing and publish outcomes of
one proposeBatch, as oracles for the external calls. -/
structure ProposeOutcomes where
  applyOk : Bool
  receiptValid : Bool
  signOk : Bool
  publishOk : Bool
deriving DecidableEq, Repr

/-- proposeBatchLocked (node.go): asserts the ProcessingBatch state (a panic
otherwise); commits the write logs to storage and verifies the receipt, signs
the commitment, publishes it — aborting the batch on each failure — and only
after a successful publish transitions to WaitingForFinalize and, when the
node is also a merge member with a merge node present, hands the commitment
directly to the merge subsystem.  The returned flag records that handoff. -/
def proposeBatchLocked (st : NodeState) (epoch : EpochSnapshot)
    (oc : ProposeOutcomes) (hasMergeNode : Bool) : StepResult × Bool :=
  match st with
  | NodeState.processingBatch _ t0 =>
    if !oc.applyOk then (abortBatchLocked st, false)
    else if !oc.receiptValid then (abortBatchLocked st, false)
    else if !oc.signOk then (abortBatchLocked st, false)
    else if !oc.publishOk then (abortBatchLocked st, false)
    else
      match transitionLocked st (NodeState.waitingForFinalize t0) with
      | some st2 => (StepResult.ok st2, epoch.isMergeMember && hasMergeNode)
      | none => (StepResult.panicked, false)
  | _ => (StepResult.panicked, false)

/-- Shared fixture: a compute member that is not a backup worker. -/
def epochWorker : EpochSnapshot :=
  { isComputeMember := true, isComputeBackupWorker := false, isMergeMember := false }

/-- Shared fixture: a node that is not a compute member. -/
def epochNonMember : EpochSnapshot :=
  { isComputeMember := false, isComputeBackupWorker := false, isMergeMember := false }

theorem encodeNatList_injective : Function.Injective encodeNatList := by
  intro l1 l2 h
  induction l1 generalizing l2 with
  | nil =>
    cases l2 with
    | nil => rfl
    | cons b bs => simp [encodeNatList] at h
  | cons a as ih =>
    cases l2 with
    | nil => simp [encodeNatList] at h
    | cons b bs =>
      simp only [encodeNatList, Nat.add_right_cancel_iff] at h
      obtain ⟨h1, h2⟩ := Nat.pair_eq_pair.mp h
      rw [h1, ih h2]

theorem rootTypeToNat_injective : Function.Injective RootType.toNat := by
  intro a b h
  cases a <;> cases b <;> simp_all [RootType.toNat]

theorem Signature.enc_injective : Function.Injective Signature.enc := by
  intro a b h
  have h2 := encodeNatList_injective h
  cases a
  cases b
  simp_all

theorem headerTypeToNat_injective : Function.Injective HeaderType.toNat := by
  intro a b h
  cases a <;> cases b <;> simp_all [HeaderType.toNat]

theorem Header.encodedHash_injective : Function.Injective Header.EncodedHash := by
  intro a b h
  have h2 := encodeNatList_injective h
  simp only [List.cons.injEq, and_true] at h2
  obtain ⟨h1, h3, h4, h5, h6, h7, h8, h9, h10, h11⟩ := h2
  have hty := headerTypeToNat_injective h6
  have hsig : a.storageSignatures = b.storageSignatures :=
    List.map_injective_iff.mpr Signature.enc_injective (encodeNatList_injective h11)
  cases a
  cases b
  simp_all

/-- C3: for every header h, VerifyStorageReceiptSignatures returns success if
and only if the storage signatures form a valid multi-signature, under the
storage receipt signature context, over the canonical encoding of the receipt
body with version 1, the header's namespace and round, root types IO and
State, and roots io-root and state-root; otherwise it returns the
signature-verification-failed error. -/
theorem c3_verify_storage_receipt_signatures (h : Header) :
    (h.VerifyStorageReceiptSignatures = Except.ok () ↔
      verifyManyToOne receiptSignatureContext (specReceiptBody h).cborEncode
        h.storageSignatures = true) ∧
    (verifyManyToOne receiptSignatureContext (specReceiptBody h).cborEncode
        h.storageSignatures = false →
      h.VerifyStorageReceiptSignatures = Except.error VerifyError.verifyFailed) := by
  have hbody : ReceiptBody.mk 1 h.nspace h.round h.RootTypesForStorageReceipt
      h.RootsForStorageReceipt = specReceiptBody h := rfl
  constructor
  · constructor
    · intro hok
      by_contra hcon
      simp only [Bool.not_eq_true] at hcon
      simp [Header.VerifyStorageReceiptSignatures, hbody, hcon] at hok
    · intro hv
      simp [Header.VerifyStorageReceiptSignatures, hbody, hv]
  · intro hv
    simp [Header.VerifyStorageReceiptSignatures, hbody, hv]

theorem c3_verify_storage_receipt_signatures_witness :
    hdr0.VerifyStorageReceiptSignatures = Except.ok () :=
  (c3_verify_storage_receipt_signatures hdr0).1.mpr (by decide)

/-- C9: MostlyEqual holds exactly when the two headers are equal after
clearing their storage-signature fields, and in particular a header is
mostly equal to its own cleared copy. -/
theorem c9_mostly_equal :
    (∀ a b : Header,
      a.MostlyEqual b = true ↔ a.withClearedSignatures = b.withClearedSignatures) ∧
    (∀ h : Header, h.MostlyEqual h.withClearedSignatures = true) := by
  have key : ∀ a b : Header,
      a.MostlyEqual b = true ↔ a.withClearedSignatures = b.withClearedSignatures := by
    intro a b
    constructor
    · intro h
      exact Header.encodedHash_injective (by simpa [Header.MostlyEqual] using h)
    · intro h
      simp [Header.MostlyEqual, h]
  refine ⟨key, fun h => (key h h.withClearedSignatures).mpr ?_⟩
  simp [Header.withClearedSignatures]

theorem c9_mostly_equal_witness :
    hdr0.MostlyEqual hdr0.withClearedSignatures = true :=
  c9_mostly_equal.2 hdr0

theorem classifyResults_cons_fst (p : PendingTx) (r : CheckTxResult)
    (tl : List (PendingTx × CheckTxResult)) :
    (classifyResults ((p, r) :: tl)).1 =
      match p.notifyCh with
      | some ch => (ch, r) :: (classifyResults tl).1
      | none => (classifyResults tl).1 := rfl

theorem classifyResults_cons_snd (p : PendingTx) (r : CheckTxResult)
    (tl : List (PendingTx × CheckTxResult)) :
    (classifyResults ((p, r) :: tl)).2 =
      if !r.success then
        ((if p.meta.recheck then [p.txHash] else []) ++ (classifyResults tl).2.1,
          (classifyResults tl).2.2)
      else if p.meta.discard || p.meta.recheck then
        (classifyResults tl).2
      else
        ((classifyResults tl).2.1,
          (r.toCheckedTransaction p.tx, p.meta.isLocal) :: (classifyResults tl).2.2) := rfl

/-- Every notification fired by classifyResults belongs to a batch item that
carried that channel. -/
theorem classifyResults_notified_from (l : List (PendingTx × CheckTxResult))
    (ch : Nat) (r : CheckTxResult) (hmem : (ch, r) ∈ (classifyResults l).1) :
    ∃ p, (p, r) ∈ l ∧ p.notifyCh = some ch := by
  induction l with
  | nil => simp [classifyResults] at hmem
  | cons hd tl ih =>
    obtain ⟨p0, r0⟩ := hd
    rw [classifyResults_cons_fst] at hmem
    cases hch : p0.notifyCh with
    | none =>
      rw [hch] at hmem
      obtain ⟨p, hp, hc⟩ := ih hmem
      exact ⟨p, List.mem_cons_of_mem _ hp, hc⟩
    | some c =>
      rw [hch] at hmem
      rcases List.mem_cons.mp hmem with heq | htl
      · obtain ⟨h1, h2⟩ := Prod.mk.inj heq
        subst h1
        subst h2
        exact ⟨p0, List.mem_cons_self _ _, hch⟩
      · obtain ⟨p, hp, hc⟩ := ih htl
        exact ⟨p, List.mem_cons_of_mem _ hp, hc⟩

/-- Every batch item that carries a notification channel gets notified with
its own result by classifyResults. -/
theorem classifyResults_notifies (l : List (PendingTx × CheckTxResult))
    (p : PendingTx) (r : CheckTxResult) (ch : Nat)
    (hmem : (p, r) ∈ l) (hch : p.notifyCh = some ch) :
    (ch, r) ∈ (classifyResults l).1 := by
  induction l with
  | nil => simp at hmem
  | cons hd tl ih =>
    obtain ⟨p0, r0⟩ := hd
    rw [classifyResults_cons_fst]
    rcases List.mem_cons.mp hmem with heq | htl
    · obtain ⟨h1, h2⟩ := Prod.mk.inj heq
      subst h1
      subst h2
      simp only [hch]
      exact List.mem_cons_self _ _
    · cases hn : p0.notifyCh with
      | none => simp only; exact ih htl
      | some c => simp only; exact List.mem_cons_of_mem _ (ih htl)

/-- A failed recheck lands in the unschedule list of classifyResults. -/
theorem classifyResults_unschedules (l : List (PendingTx × CheckTxResult))
    (p : PendingTx) (r : CheckTxResult)
    (hmem : (p, r) ∈ l) (hrecheck : p.meta.recheck = true)
    (hfail : r.success = false) :
    p.txHash ∈ (classifyResults l).2.1 := by
  induction l with
  | nil => simp at hmem
  | cons hd tl ih =>
    obtain ⟨p0, r0⟩ := hd
    have hgoal :
        p.txHash ∈ (classifyResults ((p0, r0) :: tl)).2.1 ↔
          p.txHash ∈ ((classifyResults ((p0, r0) :: tl)).2).1 := Iff.rfl
    rw [hgoal, classifyResults_cons_snd]
    rcases List.mem_cons.mp hmem with heq | htl
    · obtain ⟨h1, h2⟩ := Prod.mk.inj heq
      subst h1
      subst h2
      simp [hfail, hrecheck]
    · have ihm := ih htl
      split
      · exact List.mem_append_right _ ihm
      · split
        · exact ihm
        · exact ihm

/-- Every transaction emitted for scheduling by classifyResults comes from a
batch item that passed its check and was neither a discard nor a recheck. -/
theorem classifyResults_txs_from (l : List (PendingTx × CheckTxResult))
    (x : CheckedTransaction × Bool) (hx : x ∈ (classifyResults l).2.2) :
    ∃ p r, (p, r) ∈ l ∧ r.success = true ∧ p.meta.discard = false ∧
      p.meta.recheck = false ∧ x = (r.toCheckedTransaction p.tx, p.meta.isLocal) := by
  induction l with
  | nil => simp [classifyResults] at hx
  | cons hd tl ih =>
    obtain ⟨p0, r0⟩ := hd
    have hx2 : x ∈ ((classifyResults ((p0, r0) :: tl)).2).2 := hx
    rw [classifyResults_cons_snd] at hx2
    split at hx2
    · obtain ⟨p, r, hm, h1, h2, h3, h4⟩ := ih hx2
      exact ⟨p, r, List.mem_cons_of_mem _ hm, h1, h2, h3, h4⟩
    · split at hx2
      · obtain ⟨p, r, hm, h1, h2, h3, h4⟩ := ih hx2
        exact ⟨p, r, List.mem_cons_of_mem _ hm, h1, h2, h3, h4⟩
      · rename_i hs hdr
        simp only [Bool.not_eq_true', Bool.not_eq_false] at hs
        simp only [Bool.or_eq_true, not_or, Bool.not_eq_true] at hdr
        rcases List.mem_cons.mp hx2 with heq | htl
        · exact ⟨p0, r0, List.mem_cons_self _ _, hs, hdr.1, hdr.2, heq⟩
        · obtain ⟨p, r, hm, h1, h2, h3, h4⟩ := ih htl
          exact ⟨p, r, List.mem_cons_of_mem _ hm, h1, h2, h3, h4⟩

/-- queueCheckedLoop only adds transactions that appear in its input list. -/
theorem queueCheckedLoop_txs_from (items : List (CheckedTransaction × Bool)) :
    ∀ (sched : Scheduler) (cache : LruCache) (now : Nat) (pubOk : Nat → Bool)
      (i : Nat) (ct : CheckedTransaction),
      ct ∈ (queueCheckedLoop sched cache now pubOk i items).1.txs →
      ct ∈ sched.txs ∨ ∃ b, (ct, b) ∈ items := by
  induction items with
  | nil =>
    intro sched cache now pubOk i ct hct
    exact Or.inl (by simpa [queueCheckedLoop] using hct)
  | cons hd tl ih =>
    intro sched cache now pubOk i ct hct
    obtain ⟨tx, isLoc⟩ := hd
    simp only [queueCheckedLoop] at hct
    cases hq : sched.queueTx tx with
    | error e =>
      rw [hq] at hct
      rcases ih sched cache now pubOk (i + 1) ct hct with h | ⟨b, hb⟩
      · exact Or.inl h
      · exact Or.inr ⟨b, List.mem_cons_of_mem _ hb⟩
    | ok s2 =>
      rw [hq] at hct
      simp only at hct
      rcases ih s2 _ now pubOk (i + 1) ct hct with h | ⟨b, hb⟩
      · have hs2 : s2.txs = sched.txs ++ [tx] := by
          simp only [Scheduler.queueTx] at hq
          split at hq
          · cases hq
          · split at hq
            · cases hq
            · split at hq
              · cases hq
              · cases hq; rfl
        rw [hs2] at h
        rcases List.mem_append.mp h with h1 | h2
        · exact Or.inl h1
        · have : ct = tx := by simpa using h2
          exact Or.inr ⟨isLoc, by simp [this]⟩
      · exact Or.inr ⟨b, List.mem_cons_of_mem _ hb⟩

/-- A successful queueTx appends the transaction and changes nothing else. -/
theorem Scheduler.queueTx_ok (s : Scheduler) (tx : CheckedTransaction)
    (s2 : Scheduler) (h : s.queueTx tx = Except.ok s2) :
    s2 = { s with txs := s.txs ++ [tx] } := by
  simp only [Scheduler.queueTx] at h
  split at h
  · cases h
  · split at h
    · cases h
    · split at h
      · cases h
      · cases h; rfl

/-- Presence in the cache, phrased through peek. -/
theorem LruCache.peek_isSome_iff (c : LruCache) (k : Nat) :
    (c.peek k).isSome = true ↔ ∃ v, (k, v) ∈ c.entries := by
  constructor
  · intro h
    have h2 : (c.entries.find? fun e => e.1 == k).isSome = true := by
      simpa [LruCache.peek] using h
    obtain ⟨x, hx, hpx⟩ := List.find?_isSome.mp h2
    have hk : x.1 = k := by simpa using hpx
    exact ⟨x.2, by rw [← hk]; simpa using hx⟩
  · intro h
    obtain ⟨v, hv⟩ := h
    have : (c.entries.find? fun e => e.1 == k).isSome = true :=
      List.find?_isSome.mpr ⟨(k, v), hv, by simp⟩
    simpa [LruCache.peek] using this

/-- A put never grows the cache by more than one entry. -/
theorem LruCache.put_entries_length (c : LruCache) (k v : Nat) :
    (c.put k v).entries.length ≤ c.entries.length + 1 := by
  simp only [LruCache.put]
  have h1 := List.length_filter_le (fun e => !(e.1 == k)) c.entries
  have h2 : (((k, v) :: c.entries.filter fun e => !(e.1 == k)).take c.capacity).length ≤
      ((k, v) :: c.entries.filter fun e => !(e.1 == k)).length := by
    rw [List.length_take]
    exact min_le_right _ _
  simp only [List.length_cons] at h2
  omega

/-- A put leaves the capacity unchanged. -/
theorem LruCache.put_capacity (c : LruCache) (k v : Nat) :
    (c.put k v).capacity = c.capacity := rfl

/-- The key just put is present when the cache can hold anything at all. -/
theorem LruCache.peek_put_self (c : LruCache) (k v : Nat) (hcap : 1 ≤ c.capacity) :
    ((c.put k v).peek k).isSome = true := by
  rw [LruCache.peek_isSome_iff]
  refine ⟨v, ?_⟩
  simp only [LruCache.put]
  cases hc : c.capacity with
  | zero => omega
  | succ n =>
    rw [List.take_succ_cons]
    exact List.mem_cons_self _ _

/-- A put with room to spare keeps every other present key present. -/
theorem LruCache.peek_put_of_ne (c : LruCache) (k v h : Nat) (hne : h ≠ k)
    (hmem : (c.peek h).isSome = true)
    (hroom : c.entries.length + 1 ≤ c.capacity) :
    ((c.put k v).peek h).isSome = true := by
  rw [LruCache.peek_isSome_iff] at hmem ⊢
  obtain ⟨w, hw⟩ := hmem
  refine ⟨w, ?_⟩
  simp only [LruCache.put]
  have hlen : ((k, v) :: c.entries.filter fun e => !(e.1 == k)).length ≤ c.capacity := by
    have := List.length_filter_le (fun e => !(e.1 == k)) c.entries
    simp only [List.length_cons]
    omega
  rw [List.take_of_length_le hlen]
  exact List.mem_cons_of_mem _ (List.mem_filter.mpr ⟨hw, by simp [hne]⟩)

/-- While the seen cache has room for every insertion of the cycle, the
scheduling loop of checkTxBatch preserves present fingerprints and records
the fingerprint of every transaction it adds to the scheduler. -/
theorem queueCheckedLoop_cache (items : List (CheckedTransaction × Bool)) :
    ∀ (sched : Scheduler) (cache : LruCache) (now : Nat) (pubOk : Nat → Bool)
      (i : Nat),
      cache.entries.length + items.length ≤ cache.capacity →
      (∀ k, (cache.peek k).isSome = true →
        ((queueCheckedLoop sched cache now pubOk i items).2.1.peek k).isSome = true) ∧
      (∀ ct ∈ (queueCheckedLoop sched cache now pubOk i items).1.txs,
        ct ∉ sched.txs →
        ((queueCheckedLoop sched cache now pubOk i items).2.1.peek ct.hash).isSome = true) := by
  induction items with
  | nil =>
    intro sched cache now pubOk i _
    constructor
    · intro k hk
      simpa [queueCheckedLoop] using hk
    · intro ct hct hnot
      exact absurd (by simpa [queueCheckedLoop] using hct) hnot
  | cons hd tl ih =>
    intro sched cache now pubOk i hroom
    obtain ⟨tx, isLoc⟩ := hd
    simp only [queueCheckedLoop]
    cases hq : sched.queueTx tx with
    | error e =>
      have hroom2 : cache.entries.length + tl.length ≤ cache.capacity := by
        simp only [List.length_cons] at hroom
        omega
      exact ih sched cache now pubOk (i + 1) hroom2
    | ok s2 =>
      have hcap1 : 1 ≤ cache.capacity := by
        simp only [List.length_cons] at hroom
        omega
      have hput := LruCache.put_entries_length cache tx.hash
        (if isLoc && !(pubOk i) then 0 else now)
      have hroom2 :
          (cache.put tx.hash (if isLoc && !(pubOk i) then 0 else now)).entries.length +
            tl.length ≤
          (cache.put tx.hash (if isLoc && !(pubOk i) then 0 else now)).capacity := by
        rw [LruCache.put_capacity]
        simp only [List.length_cons] at hroom
        omega
      have ihok := ih s2 (cache.put tx.hash (if isLoc && !(pubOk i) then 0 else now))
        now pubOk (i + 1) hroom2
      have hkeep : ∀ k, (cache.peek k).isSome = true →
          ((cache.put tx.hash (if isLoc && !(pubOk i) then 0 else now)).peek k).isSome =
            true := by
        intro k hk
        by_cases hkk : k = tx.hash
        · subst hkk
          exact LruCache.peek_put_self _ _ _ hcap1
        · refine LruCache.peek_put_of_ne _ _ _ _ hkk hk ?_
          simp only [List.length_cons] at hroom
          omega
      constructor
      · intro k hk
        exact ihok.1 k (hkeep k hk)
      · intro ct hct hnot
        by_cases hs2 : ct ∈ s2.txs
        · have htxs := Scheduler.queueTx_ok sched tx s2 hq
          rw [htxs] at hs2
          simp only at hs2
          rcases List.mem_append.mp hs2 with h1 | h2
          · exact absurd h1 hnot
          · have hct2 : ct = tx := by simpa using h2
            subst hct2
            exact ihok.1 ct.hash (LruCache.peek_put_self _ _ _ hcap1)
        · exact ihok.2 ct hct hs2

/-- Membership in the scheduler after removeTxBatch. -/
theorem Scheduler.mem_removeTxBatch (s : Scheduler) (hashes : List Nat)
    (ct : CheckedTransaction) (hct : ct ∈ (s.removeTxBatch hashes).txs) :
    ct ∈ s.txs ∧ ct.hash ∉ hashes := by
  simp only [Scheduler.removeTxBatch] at hct
  have := List.mem_filter.mp hct
  refine ⟨this.1, fun hmem => ?_⟩
  have h2 := this.2
  simp only [Bool.not_eq_true', List.any_eq_false] at h2
  have := h2 ct.hash hmem
  simp at this

/-- checkTxBatch fires notifications only for transactions of the drained
check-queue batch; a transaction that was never enqueued can therefore never
have its notification channel fired, and a blocking SubmitTx waiting on such
a channel can only return through context cancellation or shutdown. -/
theorem checkTxBatch_notified_only_batch (t : TxPoolState)
    (runtimeOutcome : Option (List CheckTxResult)) (now : Nat) (pubOk : Nat → Bool)
    (ch : Nat) (r : CheckTxResult)
    (hmem : (ch, r) ∈ (t.checkTxBatch runtimeOutcome now pubOk).2.notified) :
    ∃ p ∈ t.checkQueue.getBatch, p.notifyCh = some ch := by
  simp only [TxPoolState.checkTxBatch] at hmem
  split at hmem
  · simp [noCheckEffects] at hmem
  · split at hmem
    · simp [noCheckEffects] at hmem
    · split at hmem
      · simp [noCheckEffects] at hmem
      · rename_i results
        have hnot : (ch, r) ∈
            (classifyResults (t.checkQueue.getBatch.zip results)).1 := by
          split at hmem
          · simpa [noCheckEffects] using hmem
          · split at hmem
            · simpa [noCheckEffects] using hmem
            · simpa using hmem
        obtain ⟨p, hp, hc⟩ := classifyResults_notified_from _ _ _ hnot
        exact ⟨p, (List.of_mem_zip hp).1, hc⟩

/-- C1 (amended): for a submission whose fingerprint is in the seen cache and
whose metadata has recheck unset, submitTx returns success with no effect
(nothing is enqueued and the check worker is not woken), so SubmitTxNoWait
returns success; the blocking SubmitTx, however, does not return at that
point: it proceeds into the wait for a check result although its transaction
was never placed in the check queue, so no result will ever be delivered and
it can only return through context cancellation or pool shutdown. -/
theorem c1_seen_submission (t : TxPoolState) (rawTx : List Nat)
    (meta : TransactionMeta) (notifyCh : Option Nat) (ch : Nat)
    (hseen : (t.seenCache.peek (hashNewFromBytes rawTx)).isSome = true)
    (hrecheck : meta.recheck = false) :
    t.submitTx rawTx meta notifyCh = (SubmitOutcome.skippedSeen, t) ∧
    t.SubmitTxNoWait rawTx meta = Except.ok t ∧
    t.SubmitTxStep rawTx meta ch = (SubmitStep.awaitResult false, t) := by
  have h1 : ∀ nc, t.submitTx rawTx meta nc = (SubmitOutcome.skippedSeen, t) := by
    intro nc
    simp [TxPoolState.submitTx, hseen, hrecheck]
  refine ⟨h1 notifyCh, ?_, ?_⟩
  · simp [TxPoolState.SubmitTxNoWait, h1 none]
  · simp [TxPoolState.SubmitTxStep, h1 (some ch)]

theorem c1_seen_submission_witness :
    seenPool.SubmitTxStep [1] meta0 0 = (SubmitStep.awaitResult false, seenPool) :=
  (c1_seen_submission seenPool [1] meta0 none 0 (by decide) (by decide)).2.2

/-- C1 counterexample: at the seen-cache-hit input the blocking SubmitTx does
not return immediately with success as claimed; it enters the wait for a
check result (with nothing enqueued), so it does not return without waiting. -/
theorem c1_seen_submission_cex :
    (seenPool.SubmitTxStep [1] meta0 0).1.returnsImmediately = false ∧
    (seenPool.SubmitTxStep [1] meta0 0).1 = SubmitStep.awaitResult false ∧
    (seenPool.SubmitTxStep [1] meta0 0).2 = seenPool := by
  decide

/-- C5: when the runtime rejects the whole check batch with an error, the
check-worker cycle has no effect: the pool state (check queue, scheduler,
seen cache, block information) is unchanged, no notification is fired,
nothing is broadcast and no worker is signalled. -/
theorem c5_check_batch_error_no_effect (t : TxPoolState) (bi : BlockInfo)
    (now : Nat) (pubOk : Nat → Bool)
    (hne : t.checkQueue.getBatch ≠ [])
    (hbi : t.blockInfo = some bi) :
    t.checkTxBatch none now pubOk = (t, noCheckEffects) := by
  simp [TxPoolState.checkTxBatch, hbi, List.isEmpty_iff, hne]

theorem c5_check_batch_error_no_effect_witness :
    checkPool.checkTxBatch none 5 pubOkAll = (checkPool, noCheckEffects) :=
  c5_check_batch_error_no_effect checkPool bi0 5 pubOkAll (by decide) rfl

/-- C6: a ProcessBlock carrying an epoch-transition block whose descriptor
names a different scheduler algorithm returns an error, and the existing
scheduler is kept unchanged (neither replaced nor its parameters updated). -/
theorem c6_algorithm_change_rejected (t : TxPoolState) (bi : BlockInfo)
    (s : Scheduler)
    (hsched : t.sched = some s)
    (hepoch : bi.headerType = HeaderType.epochTransition)
    (halgo : bi.activeDescriptor.txnSchedulerAlgorithm ≠ s.algoName) :
    (t.ProcessBlock bi).2.1 =
      some "transaction scheduler algorithm update not supported" ∧
    (t.ProcessBlock bi).1.sched = some s ∧
    (t.ProcessBlock bi).1.blockInfo = t.blockInfo := by
  have hupd2 : (t.updateScheduler bi).2 =
      some "transaction scheduler algorithm update not supported" := by
    simp only [TxPoolState.updateScheduler, hsched]
    rw [if_pos halgo]
  have hupds : (t.updateScheduler bi).1.sched = some s := by
    simp only [TxPoolState.updateScheduler, hsched]
    rw [if_pos halgo]
  have hupdb : (t.updateScheduler bi).1.blockInfo = t.blockInfo := by
    simp only [TxPoolState.updateScheduler, hsched]
    rw [if_pos halgo]
  simp only [TxPoolState.ProcessBlock, hepoch]
  simp only [beq_self_eq_true, Bool.or_true, if_true, hupd2]
  simp [hupds, hupdb]

/-- classifyResults emits at most one scheduling candidate per batch item. -/
theorem classifyResults_txs_length (l : List (PendingTx × CheckTxResult)) :
    (classifyResults l).2.2.length ≤ l.length := by
  induction l with
  | nil => simp [classifyResults]
  | cons hd tl ih =>
    obtain ⟨p, r⟩ := hd
    have hr : (classifyResults ((p, r) :: tl)).2.2 =
        ((classifyResults ((p, r) :: tl)).2).2 := rfl
    rw [hr, classifyResults_cons_snd]
    split
    · simpa using Nat.le_succ_of_le ih
    · split
      · simpa using Nat.le_succ_of_le ih
      · simpa using Nat.succ_le_succ ih

/-- With an initialized scheduler, known block information and a non-empty
batch, a check cycle with per-transaction results computes checkTxBatchRun. -/
theorem checkTxBatch_run (t : TxPoolState) (s : Scheduler) (bi : BlockInfo)
    (results : List CheckTxResult) (now : Nat) (pubOk : Nat → Bool)
    (hsched : t.sched = some s) (hbi : t.blockInfo = some bi)
    (hne : t.checkQueue.getBatch ≠ []) :
    t.checkTxBatch (some results) now pubOk = checkTxBatchRun t s results now pubOk := by
  unfold TxPoolState.checkTxBatch checkTxBatchRun
  rw [if_neg (by simpa [List.isEmpty_iff] using hne)]
  rw [hbi]
  simp only [TxPoolState.RemoveTxBatch, hsched, Option.map_some']

/-- In the final scheduler of a successful check cycle, every transaction
either survived from the prior scheduler and its hash was not in the
unschedule list, or it was added from the cycle's own passing
transactions. -/
theorem checkTxBatch_sched_mem (t : TxPoolState) (s : Scheduler) (bi : BlockInfo)
    (results : List CheckTxResult) (now : Nat) (pubOk : Nat → Bool) (s2 : Scheduler)
    (hsched : t.sched = some s) (hbi : t.blockInfo = some bi)
    (hne : t.checkQueue.getBatch ≠ [])
    (hfin : (t.checkTxBatch (some results) now pubOk).1.sched = some s2)
    (ct : CheckedTransaction) (hct : ct ∈ s2.txs) :
    (ct ∈ s.txs ∧
      ct.hash ∉ (classifyResults (t.checkQueue.getBatch.zip results)).2.1) ∨
    ∃ b, (ct, b) ∈ (classifyResults (t.checkQueue.getBatch.zip results)).2.2 := by
  rw [checkTxBatch_run t s bi results now pubOk hsched hbi hne] at hfin
  cases hemp : (classifyResults (t.checkQueue.getBatch.zip results)).2.2.isEmpty with
  | true =>
    simp only [checkTxBatchRun, hemp, if_true, Option.some.injEq] at hfin
    rw [← hfin] at hct
    exact Or.inl (Scheduler.mem_removeTxBatch _ _ _ hct)
  | false =>
    simp only [checkTxBatchRun, hemp, Bool.false_eq_true, if_false,
      Option.some.injEq] at hfin
    rw [← hfin] at hct
    rcases queueCheckedLoop_txs_from _ _ _ _ _ _ _ hct with hin | ⟨b, hb⟩
    · exact Or.inl (Scheduler.mem_removeTxBatch _ _ _ hin)
    · exact Or.inr ⟨b, hb⟩

/-- The notifications of a successful check cycle are exactly the ones
collected by classifyResults over the drained batch. -/
theorem checkTxBatch_notified_eq (t : TxPoolState) (s : Scheduler) (bi : BlockInfo)
    (results : List CheckTxResult) (now : Nat) (pubOk : Nat → Bool)
    (hsched : t.sched = some s) (hbi : t.blockInfo = some bi)
    (hne : t.checkQueue.getBatch ≠ []) :
    (t.checkTxBatch (some results) now pubOk).2.notified =
      (classifyResults (t.checkQueue.getBatch.zip results)).1 := by
  rw [checkTxBatch_run t s bi results now pubOk hsched hbi hne]
  cases hemp : (classifyResults (t.checkQueue.getBatch.zip results)).2.2.isEmpty with
  | true => simp only [checkTxBatchRun, hemp, if_true]
  | false => simp only [checkTxBatchRun, hemp, Bool.false_eq_true, if_false]

/-- C4: a transaction submitted for recheck whose runtime check fails has its
hash passed to the scheduler's RemoveTxBatch (it is in the unschedule list of
the cycle), and once the check-worker cycle completes it is absent from the
scheduling queue. -/
theorem c4_recheck_failure_removed (t : TxPoolState) (s : Scheduler)
    (bi : BlockInfo) (results : List CheckTxResult) (p : PendingTx)
    (r : CheckTxResult) (now : Nat) (pubOk : Nat → Bool)
    (hsched : t.sched = some s)
    (hbi : t.blockInfo = some bi)
    (hwf : ∀ q ∈ t.checkQueue.getBatch, q.txHash = hashNewFromBytes q.tx)
    (hnodup : (t.checkQueue.getBatch.map PendingTx.txHash).Nodup)
    (hmem : (p, r) ∈ t.checkQueue.getBatch.zip results)
    (hrecheck : p.meta.recheck = true)
    (hfail : r.success = false) :
    p.txHash ∈ (classifyResults (t.checkQueue.getBatch.zip results)).2.1 ∧
    ∀ s2, (t.checkTxBatch (some results) now pubOk).1.sched = some s2 →
      ∀ ct ∈ s2.txs, ct.hash ≠ p.txHash := by
  have hne : t.checkQueue.getBatch ≠ [] := by
    intro h
    rw [h] at hmem
    simp at hmem
  have huns : p.txHash ∈ (classifyResults (t.checkQueue.getBatch.zip results)).2.1 :=
    classifyResults_unschedules _ p r hmem hrecheck hfail
  refine ⟨huns, ?_⟩
  intro s2 hfin ct hct heq
  rcases checkTxBatch_sched_mem t s bi results now pubOk s2 hsched hbi hne hfin ct hct
    with ⟨_, hnot⟩ | ⟨b, hb⟩
  · exact hnot (heq ▸ huns)
  · obtain ⟨q, r2, hqr, _, _, hrec, hx⟩ := classifyResults_txs_from _ _ hb
    have hqb : q ∈ t.checkQueue.getBatch := (List.of_mem_zip hqr).1
    have hpb : p ∈ t.checkQueue.getBatch := (List.of_mem_zip hmem).1
    have hqhash : ct.hash = hashNewFromBytes q.tx := by
      have : ct = r2.toCheckedTransaction q.tx := congrArg Prod.fst hx
      rw [this]
      rfl
    have hsame : q.txHash = p.txHash := by
      rw [hwf q hqb, ← hqhash, heq]
    have hqp : q = p := List.inj_on_of_nodup_map hnodup hqb hpb hsame
    rw [hqp, hrecheck] at hrec
    cases hrec

/-- C2 (amended): consider a blocking SubmitTx whose transaction is processed
by a check cycle (so the caller is handed the check result, which is how the
call returns).  If the transaction ends up in the scheduling queue when the
cycle completes (it passed the check, was neither a discard nor a recheck
submission, and the scheduler accepted it), was not already scheduled before
the cycle, and the seen cache has room for the cycle's insertions, then the
fingerprint is present in the seen cache when the cycle completes.  Without
those conditions the fingerprint may be absent: a failed check, a discard
submission or a scheduler rejection skips the seen-cache insertion although
the blocking call still returns its result. -/
theorem c2_seen_cache_after_check (t : TxPoolState) (s : Scheduler)
    (bi : BlockInfo) (results : List CheckTxResult) (p : PendingTx)
    (r : CheckTxResult) (ch : Nat) (now : Nat) (pubOk : Nat → Bool)
    (s2 : Scheduler)
    (hsched : t.sched = some s) (hbi : t.blockInfo = some bi)
    (hmem : (p, r) ∈ t.checkQueue.getBatch.zip results)
    (hch : p.notifyCh = some ch)
    (hcap : t.seenCache.entries.length + t.checkQueue.getBatch.length ≤
      t.seenCache.capacity)
    (hfresh : ∀ c ∈ s.txs, c.hash ≠ p.txHash)
    (hfin : (t.checkTxBatch (some results) now pubOk).1.sched = some s2)
    (hkept : ∃ ct ∈ s2.txs, ct.hash = p.txHash) :
    (ch, r) ∈ (t.checkTxBatch (some results) now pubOk).2.notified ∧
    ((t.checkTxBatch (some results) now pubOk).1.seenCache.peek p.txHash).isSome
      = true := by
  have hne : t.checkQueue.getBatch ≠ [] := by
    intro h
    rw [h] at hmem
    simp at hmem
  constructor
  · rw [checkTxBatch_notified_eq t s bi results now pubOk hsched hbi hne]
    exact classifyResults_notifies _ p r ch hmem hch
  · obtain ⟨ct, hct, hcth⟩ := hkept
    rw [checkTxBatch_run t s bi results now pubOk hsched hbi hne] at hfin ⊢
    cases hemp : (classifyResults (t.checkQueue.getBatch.zip results)).2.2.isEmpty with
    | true =>
      simp only [checkTxBatchRun, hemp, if_true, Option.some.injEq] at hfin
      rw [← hfin] at hct
      exact absurd hcth (hfresh ct (Scheduler.mem_removeTxBatch _ _ _ hct).1)
    | false =>
      simp only [checkTxBatchRun, hemp, Bool.false_eq_true, if_false,
        Option.some.injEq] at hfin ⊢
      rw [← hfin] at hct
      have hnotold :
          ct ∉ (s.removeTxBatch
            (classifyResults (t.checkQueue.getBatch.zip results)).2.1).txs := by
        intro hin
        exact absurd hcth (hfresh ct (Scheduler.mem_removeTxBatch _ _ _ hin).1)
      have hccap : t.seenCache.entries.length +
          (classifyResults (t.checkQueue.getBatch.zip results)).2.2.length ≤
          t.seenCache.capacity := by
        have h1 := classifyResults_txs_length (t.checkQueue.getBatch.zip results)
        have h2 : (t.checkQueue.getBatch.zip results).length ≤
            t.checkQueue.getBatch.length := by
          rw [List.length_zip]
          exact min_le_left _ _
        omega
      have hloop := (queueCheckedLoop_cache
        (classifyResults (t.checkQueue.getBatch.zip results)).2.2
        (s.removeTxBatch (classifyResults (t.checkQueue.getBatch.zip results)).2.1)
        t.seenCache now pubOk 0 hccap).2 ct hct hnotold
      rw [← hcth]
      exact hloop

theorem c2_seen_cache_after_check_witness :
    (7, resOk) ∈ (checkPool.checkTxBatch (some [resOk]) 5 pubOkAll).2.notified ∧
    ((checkPool.checkTxBatch (some [resOk]) 5 pubOkAll).1.seenCache.peek
      ptx0.txHash).isSome = true :=
  c2_seen_cache_after_check checkPool sched0 bi0 [resOk] ptx0 resOk 7 5 pubOkAll
    sched1 rfl rfl (by decide) rfl (by decide) (by decide) (by decide) (by decide)

/-- C2 counterexample: a blocking SubmitTx with recheck unset and discard set
receives its check result (so the call returns successfully), yet after the
cycle the fingerprint is not in the seen cache: the notification is fired but
the seen-cache insertion is skipped for discard submissions. -/
theorem c2_seen_cache_after_check_cex :
    (discardPool.checkTxBatch (some [resOk]) 5 pubOkAll).2.notified =
      [(7, resOk)] ∧
    (discardPool.checkTxBatch (some [resOk]) 5 pubOkAll).1.seenCache.peek
      (hashNewFromBytes [1]) = none := by
  decide

theorem c4_recheck_failure_removed_witness :
    ptxRe.txHash ∈
      (classifyResults (recheckPool.checkQueue.getBatch.zip [resFail])).2.1 ∧
    ∀ s2, (recheckPool.checkTxBatch (some [resFail]) 5 pubOkAll).1.sched = some s2 →
      ∀ ct ∈ s2.txs, ct.hash ≠ ptxRe.txHash :=
  c4_recheck_failure_removed recheckPool schedRe bi0 [resFail] ptxRe resFail 5
    pubOkAll rfl rfl (by decide) (by decide) (by decide) rfl rfl

theorem c6_algorithm_change_rejected_witness :
    (checkPool.ProcessBlock biOther).2.1 =
      some "transaction scheduler algorithm update not supported" ∧
    (checkPool.ProcessBlock biOther).1.sched = some sched0 ∧
    (checkPool.ProcessBlock biOther).1.blockInfo = checkPool.blockInfo :=
  c6_algorithm_change_rejected checkPool biOther sched0 rfl rfl (by decide)

theorem transition_wfb_processing (b : List (List Nat)) (t0 : Nat) :
    transitionLocked NodeState.waitingForBatch (NodeState.processingBatch b t0) =
      some (NodeState.processingBatch b t0) := rfl

theorem transition_wfb_event (b : List (List Nat)) :
    transitionLocked NodeState.waitingForBatch (NodeState.waitingForEvent b) =
      some (NodeState.waitingForEvent b) := rfl

theorem transition_wfb_block (b : List (List Nat)) (h : Header) :
    transitionLocked NodeState.waitingForBatch (NodeState.waitingForBlock b h) =
      some (NodeState.waitingForBlock b h) := rfl

theorem transition_block_processing (b0 : List (List Nat)) (h : Header)
    (b : List (List Nat)) (t0 : Nat) :
    transitionLocked (NodeState.waitingForBlock b0 h) (NodeState.processingBatch b t0) =
      some (NodeState.processingBatch b t0) := rfl

theorem transition_block_event (b0 : List (List Nat)) (h : Header)
    (b : List (List Nat)) :
    transitionLocked (NodeState.waitingForBlock b0 h) (NodeState.waitingForEvent b) =
      some (NodeState.waitingForEvent b) := rfl

theorem transition_block_wfb (b0 : List (List Nat)) (h : Header) :
    transitionLocked (NodeState.waitingForBlock b0 h) NodeState.waitingForBatch =
      some NodeState.waitingForBatch := rfl

theorem transition_event_processing (b0 b : List (List Nat)) (t0 : Nat) :
    transitionLocked (NodeState.waitingForEvent b0) (NodeState.processingBatch b t0) =
      some (NodeState.processingBatch b t0) := rfl

theorem transition_event_wfb (b0 : List (List Nat)) :
    transitionLocked (NodeState.waitingForEvent b0) NodeState.waitingForBatch =
      some NodeState.waitingForBatch := rfl

theorem transition_processing_finalize (b0 : List (List Nat)) (t1 t0 : Nat) :
    transitionLocked (NodeState.processingBatch b0 t1) (NodeState.waitingForFinalize t0) =
      some (NodeState.waitingForFinalize t0) := rfl

theorem transition_finalize_wfb (t0 : Nat) :
    transitionLocked (NodeState.waitingForFinalize t0) NodeState.waitingForBatch =
      some NodeState.waitingForBatch := rfl

/-- C7 (amended): a controller that is waiting for a batch and is a compute
member handles an arriving external batch as follows: if the batch's header
mostly equals the current block's header, it transitions to ProcessingBatch
(to WaitingForEvent when the node is a compute backup worker); otherwise, if
the current block's round is strictly older than the batch header's round, it
transitions to WaitingForBlock storing the batch; otherwise the batch is
rejected with the incompatible-header error and the state is unchanged.  A
node that is not a compute member instead rejects every external batch with
the incorrect-role error. -/
theorem c7_external_batch (cb hdr : Header) (epoch : EpochSnapshot)
    (batch : List (List Nat)) (now : Nat)
    (hmember : epoch.isComputeMember = true) :
    (cb.MostlyEqual hdr = true →
      handleExternalBatchLocked NodeState.waitingForBatch (some cb) epoch batch
          hdr now =
        StepResult.ok (if epoch.isComputeBackupWorker then
          NodeState.waitingForEvent batch else NodeState.processingBatch batch now)) ∧
    (cb.MostlyEqual hdr = false → cb.round < hdr.round →
      handleExternalBatchLocked NodeState.waitingForBatch (some cb) epoch batch
          hdr now = StepResult.ok (NodeState.waitingForBlock batch hdr)) ∧
    (cb.MostlyEqual hdr = false → hdr.round ≤ cb.round →
      handleExternalBatchLocked NodeState.waitingForBatch (some cb) epoch batch
          hdr now = StepResult.err NodeError.incompatibleHeader) := by
  refine ⟨?_, ?_, ?_⟩
  · intro hmeq
    cases hb : epoch.isComputeBackupWorker with
    | true =>
      simp only [handleExternalBatchLocked, hmember, Bool.not_true,
        Bool.false_eq_true, if_false, hmeq, if_true,
        maybeStartProcessingBatchLocked, hb, transition_wfb_event]
    | false =>
      simp only [handleExternalBatchLocked, hmember, Bool.not_true,
        Bool.false_eq_true, if_false, hmeq, if_true,
        maybeStartProcessingBatchLocked, hb, startProcessingBatchLocked,
        transition_wfb_processing]
  · intro hmeq hround
    have hnot : ¬hdr.round ≤ cb.round := by omega
    simp only [handleExternalBatchLocked, hmember, Bool.not_true,
      Bool.false_eq_true, if_false, hmeq, hnot, transition_wfb_block]
  · intro hmeq hround
    simp only [handleExternalBatchLocked, hmember, Bool.not_true,
      Bool.false_eq_true, if_false, hmeq, hround, if_true]

theorem c7_external_batch_witness :
    handleExternalBatchLocked NodeState.waitingForBatch (some hdr0) epochWorker
      [[1]] hdr0 4 = StepResult.ok (NodeState.processingBatch [[1]] 4) :=
  (c7_external_batch hdr0 hdr0 epochWorker [[1]] 4 rfl).1 (by decide)

/-- C7 counterexample: with the batch header mostly equal to the current
block's header but the node not a compute member, the controller does not
transition to ProcessingBatch as the claim requires; it rejects the batch
with the incorrect-role error. -/
theorem c7_external_batch_cex :
    hdr0.MostlyEqual hdr0 = true ∧
    handleExternalBatchLocked NodeState.waitingForBatch (some hdr0) epochNonMember
      [[1]] hdr0 4 = StepResult.err NodeError.incorrectRole := by
  decide

/-- C8: when the storage apply or the receipt verification fails, or when
publishing the signed commitment fails, proposeBatch aborts the batch: the
controller ends in WaitingForFinalize and the commitment is not handed to the
merge subsystem. -/
theorem c8_propose_failure_aborts (batch : List (List Nat)) (t0 : Nat)
    (epoch : EpochSnapshot) (oc : ProposeOutcomes) (hasMergeNode : Bool)
    (hfail : oc.applyOk = false ∨ oc.receiptValid = false ∨ oc.publishOk = false) :
    proposeBatchLocked (NodeState.processingBatch batch t0) epoch oc hasMergeNode =
      (StepResult.ok (NodeState.waitingForFinalize t0), false) := by
  obtain ⟨a, r, sgn, p⟩ := oc
  cases a <;> cases r <;> cases sgn <;> cases p <;>
    simp_all [proposeBatchLocked, abortBatchLocked, transition_processing_finalize]

theorem c8_propose_failure_aborts_witness :
    proposeBatchLocked (NodeState.processingBatch [[1]] 4) epochWorker
      { applyOk := true, receiptValid := false, signOk := true, publishOk := true }
      true = (StepResult.ok (NodeState.waitingForFinalize 4), false) :=
  c8_propose_failure_aborts [[1]] 4 epochWorker
    { applyOk := true, receiptValid := false, signOk := true, publishOk := true }
    true (by decide)

/-- C10 (amended): every state change of the controller goes through
transitionLocked, which checks the target against the validStateTransitions
table and panics on a disallowed pair.  For the external-batch, new-block,
event, abort and propose operations (given a current block), every
transition they attempt from their guard states is an edge of the table, so
their panic branch is unreachable; an epoch transition arriving while a
batch is being processed, by contrast, does reach the panic under the
spec's table (see the counterexample). -/
theorem c10_guarded_transitions :
    (∀ st cb epoch batch hdr now,
      handleExternalBatchLocked st (some cb) epoch batch hdr now ≠
        StepResult.panicked) ∧
    (∀ st cb epoch blk now,
      HandleNewBlockLocked st (some cb) epoch blk now ≠ StepResult.panicked) ∧
    (∀ st cb epoch hasDis now,
      HandleNewEventLocked st (some cb) epoch hasDis now ≠ StepResult.panicked) ∧
    (∀ st, abortBatchLocked st ≠ StepResult.panicked) ∧
    (∀ batch t0 epoch oc hasMergeNode,
      (proposeBatchLocked (NodeState.processingBatch batch t0) epoch oc
        hasMergeNode).1 ≠ StepResult.panicked) := by
  refine ⟨?_, ?_, ?_, ?_, ?_⟩
  · intro st cb epoch batch hdr now
    cases st <;> simp only [handleExternalBatchLocked] <;>
      try exact fun h => by cases h
    cases hm : epoch.isComputeMember with
    | false => simp
    | true =>
      cases hq : cb.MostlyEqual hdr with
      | true =>
        cases hb : epoch.isComputeBackupWorker with
        | true =>
          simp [maybeStartProcessingBatchLocked, hb, transition_wfb_event]
        | false =>
          simp [maybeStartProcessingBatchLocked, hb, startProcessingBatchLocked,
            transition_wfb_processing]
      | false =>
        by_cases hr : hdr.round ≤ cb.round
        · simp [hr]
        · simp [hr, transition_wfb_block]
  · intro st cb epoch blk now
    cases st with
    | waitingForBlock batch hdr =>
      simp only [HandleNewBlockLocked]
      cases hq : blk.MostlyEqual hdr with
      | true =>
        cases hb : epoch.isComputeBackupWorker with
        | true =>
          simp [maybeStartProcessingBatchLocked, hb, transition_block_event]
        | false =>
          simp [maybeStartProcessingBatchLocked, hb, startProcessingBatchLocked,
            transition_block_processing]
      | false =>
        by_cases hr : hdr.round ≤ blk.round
        · simp [hr, transition_block_wfb]
        · simp [hr]
    | waitingForEvent batch =>
      simp [HandleNewBlockLocked, transition_event_wfb]
    | waitingForFinalize t0 =>
      simp [HandleNewBlockLocked, transition_finalize_wfb]
    | notReady => simp [HandleNewBlockLocked]
    | waitingForBatch => simp [HandleNewBlockLocked]
    | processingBatch batch t0 => simp [HandleNewBlockLocked]
  · intro st cb epoch hasDis now
    cases hasDis with
    | false => simp [HandleNewEventLocked]
    | true =>
      cases st <;> simp only [HandleNewEventLocked] <;> try simp
      cases hb : epoch.isComputeBackupWorker with
      | true =>
        simp [startProcessingBatchLocked, transition_event_processing]
      | false => simp
  · intro st
    cases st <;> simp [abortBatchLocked, transition_processing_finalize]
  · intro batch t0 epoch oc hasMergeNode
    obtain ⟨a, r, sgn, p⟩ := oc
    cases a <;> cases r <;> cases sgn <;> cases p <;>
      simp [proposeBatchLocked, abortBatchLocked, transition_processing_finalize]

/-- C10 counterexample: under the spec's transition table an epoch transition
(with the node a compute member) arriving while the controller is in
ProcessingBatch attempts the transition ProcessingBatch to WaitingForBatch,
which is not an edge of the table, so transitionLocked panics; the panic
branch is therefore reachable under the controller's operations. -/
theorem c10_guarded_transitions_cex :
    HandleEpochTransitionLocked (NodeState.processingBatch [] 0) epochWorker =
      StepResult.panicked := by
  decide

end Oasis
